import Mathlib

/-!
Shallow embedding of the PhoneNumberDetectTR pipeline (receiver / queue
manager / sender worker / OCR service / phone extractor) and proofs about
its job lifecycle.

Conventions used throughout the embedding:
* Python floats (confidence scores) are modelled as `Rat`; the code only
  compares them and copies them around.
* Python strings and `re` patterns over them are modelled on `List Char`;
  `\d` is modelled as ASCII decimal digits and `\s` as the ASCII whitespace
  class, which is what the joined OCR text contains.
* External collaborators (HTTP download, the PaddleOCR engine, the wall
  clock, `uuid4`, `datetime.fromisoformat`) are oracles supplied as explicit
  parameters; the code under test never inspects them beyond the uses shown.
* Redis is modelled as the state it holds: a FIFO list of pending jobs
  (`rpush` to the tail / `lpop` from the head, exactly the two Redis calls
  the code issues) plus a keyed store of result records.  Result TTL/expiry
  and blocking-pop timing are wall-clock behaviour and are outside the model.
-/

namespace PhoneDetect

/-- One OCR fragment, the `OCRResult` dataclass of `src/ocr_service.py`
(fields `text` and `confidence`). -/
structure OCRResult where
  text : String
  confidence : Rat
  deriving DecidableEq, Repr

/-- `settings.phone.min_confidence = 0.3` from `config/settings.py`. -/
def min_confidence : Rat := mkRat 3 10

/-- `settings.api.max_retries = 3` from `config/settings.py`. -/
def default_max_retries : Nat := 3

/-! ### Phone extractor (`src/phone_extractor.py`)

The source searches the joined OCR text with the Python regex
`[Ss]özle[sş]me[-‐–—]?\s*(\d{10})` and falls back to the first match of
`5\d{9}` in the digits-only text.  At every choice point of the first
pattern the relevant character classes (`[-‐–—]`, `\s`, `\d`) are pairwise
disjoint, so the greedy deterministic matcher below computes exactly the
leftmost `re.search` match. -/

/-- The ASCII part of Python's `\s` class. -/
def isPySpace (c : Char) : Bool :=
  c = ' ' || c = '\t' || c = '\n' || c = '\r' || c = '\x0b' || c = '\x0c'

/-- The dash alternatives `[-‐–—]` of the contract pattern. -/
def isDashChar (c : Char) : Bool :=
  c = '-' || c = '‐' || c = '–' || c = '—'

/-- Strip a literal pattern from the front of the input, returning the rest. -/
def stripChars : List Char → List Char → Option (List Char)
  | [], cs => some cs
  | _ :: _, [] => none
  | p :: ps, c :: cs => if c = p then stripChars ps cs else none

/-- Consume exactly `n` decimal digits (`\d{n}`), returning them and the rest. -/
def takeDigits : Nat → List Char → Option (List Char × List Char)
  | 0, cs => some ([], cs)
  | _ + 1, [] => none
  | n + 1, c :: cs =>
    if c.isDigit then
      match takeDigits n cs with
      | some (ds, rest) => some (c :: ds, rest)
      | none => none
    else none

/-- Consume one character satisfying a character class, returning the rest. -/
def guardChar (p : Char → Bool) : List Char → Option (List Char)
  | [] => none
  | c :: cs => if p c then some cs else none

/-- The optional dash `[-‐–—]?`: consume one dash character if present. -/
def dropDashOpt : List Char → List Char
  | [] => []
  | d :: rest => if isDashChar d then rest else d :: rest

/-- Match `[Ss]özle[sş]me[-‐–—]?\s*(\d{10})` anchored at the start of the
input; returns the captured group (the ten digits).  Each step consumes the
corresponding piece of the pattern, failing (`none`) exactly when the regex
fails at this position. -/
def matchContractAt (cs : List Char) : Option (List Char) :=
  (guardChar (fun c => c = 'S' || c = 's') cs).bind fun r1 =>
  (stripChars ['ö', 'z', 'l', 'e'] r1).bind fun r2 =>
  (guardChar (fun c => c = 's' || c = 'ş') r2).bind fun r3 =>
  (stripChars ['m', 'e'] r3).bind fun r4 =>
  (takeDigits 10 ((dropDashOpt r4).dropWhile isPySpace)).map fun p => p.1

/-- `re.search` of the contract pattern: leftmost match wins. -/
def searchContract : List Char → Option (List Char)
  | [] => none
  | c :: cs =>
    match matchContractAt (c :: cs) with
    | some ds => some ds
    | none => searchContract cs

/-- Match `5\d{9}` anchored at the start of the input. -/
def matchPhoneAt : List Char → Option (List Char)
  | [] => none
  | c :: cs =>
    if c = '5' then
      match takeDigits 9 cs with
      | some (ds, _) => some (c :: ds)
      | none => none
    else none

/-- First (leftmost) match of `5\d{9}`, i.e. `re.findall(...)[0]`. -/
def findPhone : List Char → Option (List Char)
  | [] => none
  | c :: cs =>
    match matchPhoneAt (c :: cs) with
    | some ds => some ds
    | none => findPhone cs

/-- Whether `sub` occurs at the start of `hay`. -/
def isPrefixChars : List Char → List Char → Bool
  | [], _ => true
  | _ :: _, [] => false
  | a :: as, b :: bs => a = b && isPrefixChars as bs

/-- Python's substring test `sub in hay`. -/
def containsChars (sub : List Char) : List Char → Bool
  | [] => sub.isEmpty
  | c :: t => isPrefixChars sub (c :: t) || containsChars sub t

/-- The fallback branch of `extract_contract_number` (lines 47-57 of
`src/phone_extractor.py`): digits-only text, first match of `5\d{9}`,
scored with `max(scores)` (`0.0` for an empty input list). -/
def phoneFallback (texts_with_scores : List (String × Rat)) (full_text : String) :
    Option String × Rat :=
  let clean_text := full_text.data.filter Char.isDigit
  match findPhone clean_text with
  | some ds =>
    let max_score := match texts_with_scores.map fun t => t.2 with
      | [] => 0
      | s :: ss => ss.foldl max s
    (some (String.mk ds), max_score)
  | none => (none, 0)

/-- `extract_contract_number` from `src/phone_extractor.py`.  The input list
plays the role of `ocr_results` (each element carrying `.text` and
`.confidence`); the result is the `(number, score)` pair, with `number`
possibly `None`.  Python reaches the fallback lines both when the contract
pattern does not match and when its captured number does not start with
`'5'`. -/
def extract_contract_number (ocr_results : List OCRResult) : Option String × Rat :=
  let texts_with_scores := ocr_results.map fun r => (r.text, r.confidence)
  let full_text := String.intercalate " " (texts_with_scores.map fun t => t.1)
  match searchContract full_text.data with
  | some ds =>
    match ds with
    | '5' :: rest =>
      -- `number.startswith('5')` holds; look up the score of the first
      -- fragment containing the number or the literal `"Sözle"`
      let number := String.mk ('5' :: rest)
      match texts_with_scores.find? fun p =>
          containsChars ('5' :: rest) p.1.data || containsChars "Sözle".data p.1.data with
      | some p => (some number, p.2)
      | none => (some number, mkRat 99 100)
    | _ => phoneFallback texts_with_scores full_text
  | none => phoneFallback texts_with_scores full_text

/-! ### Data model -/

/-- A pending Job Record, the dict built by `QueueManager.enqueue_job` /
mutated by `QueueManager.requeue_job` (`src/queue_manager.py`). -/
structure Job where
  task_id : String
  image_url : String
  user_id : String
  timestamp : String
  callback_url : Option String
  enqueued_at : String
  retry_count : Nat
  deriving DecidableEq, Repr

/-- The `status` field of a stored Result Record: `'completed'` or `'error'`
(`SenderWorker.process_job` writes no other value). -/
inductive RStatus where
  | completed
  | error
  deriving DecidableEq, Repr

/-- A Result Record, the dict built by `SenderWorker.process_job` and stored
by `QueueManager.store_result`.  Fields absent from one of the two variants
are `none`; `processed_at`/`completed_at` come from the wall-clock oracle.
The `processing_time` stopwatch field is wall-clock behaviour and is not
modelled. -/
structure ResultRec where
  task_id : String
  status : RStatus
  user_id : String
  timestamp : String
  image_url : String
  phone_number : Option String := none
  confidence : Option Rat := none
  ocr_text : Option String := none
  error : Option String := none
  processed_at : String := ""
  completed_at : String := ""
  deriving DecidableEq, Repr

/-- An opaque decoded image (PIL image / numpy array); the model never looks
inside, it only hands images to the OCR engine oracle. -/
structure Image where
  id : Nat
  deriving DecidableEq, Repr

/-- Outcome of the external HTTP fetch inside `SenderWorker.download_image`:
either decoded image bytes or a raised exception with message `msg`. -/
inductive HttpResult where
  | ok (img : Image)
  | err (msg : String)
  deriving DecidableEq, Repr

/-- The dict-like page object PaddleOCR returns: parallel `rec_texts` /
`rec_scores` lists (`src/ocr_service.py`). -/
structure RawOCRPage where
  rec_texts : List String
  rec_scores : List Rat
  deriving DecidableEq, Repr

/-- Outcome of the raw engine call `self._ocr.ocr(img)` (together with the
image conversion/resize preceding it, which sits inside the same `try`):
a raised exception, or a returned value that is `None` or a list of pages. -/
inductive EngineResult where
  | raised (msg : String)
  | returned (pages : Option (List RawOCRPage))
  deriving DecidableEq, Repr

/-- The `ProcessedOCRResult` dataclass of `src/ocr_service.py`. -/
structure ProcessedOCRResult where
  success : Bool
  text : String
  results : List OCRResult := []
  error : Option String := none
  deriving DecidableEq, Repr

/-- The external world as seen by one worker attempt: the HTTP fetch per
URL, the OCR engine per image, and the wall clock (`datetime.now`). -/
structure Env where
  http : String → HttpResult
  engine : Image → EngineResult
  now : String

/-! ### OCR service (`src/ocr_service.py`) -/

/-- The fragment-collection loop of `OCRService.process_image`: for each
`rec_texts[i]`, score `rec_scores[i]` (or `0.0` past the end), kept when the
text is non-empty and the score reaches `min_confidence`. -/
def collectResults (rec_texts : List String) (rec_scores : List Rat) : List OCRResult :=
  rec_texts.enum.filterMap fun p =>
    let score := rec_scores.getD p.1 0
    if p.2 ≠ "" ∧ min_confidence ≤ score then some ⟨p.2, score⟩ else none

/-- `OCRService.process_image`.  The whole body is wrapped in `try/except`,
so a raised engine exception yields `success := false` with the message in
`error`; `None` or an empty page list yields `success := false`; otherwise
the kept fragments decide `success` (`True if ocr_results else False`). -/
def ocr_process_image (env : Env) (img : Image) : ProcessedOCRResult :=
  match env.engine img with
  | .raised msg => { success := false, text := "", results := [], error := some msg }
  | .returned none => { success := false, text := "", results := [] }
  | .returned (some []) => { success := false, text := "", results := [] }
  | .returned (some (page :: _)) =>
    let ocr_results := collectResults page.rec_texts page.rec_scores
    let full_text := String.intercalate " " (ocr_results.map fun r => r.text)
    { success := !ocr_results.isEmpty, text := full_text, results := ocr_results }

/-! ### Queue manager (`src/queue_manager.py`)

The two Redis list operations the code issues on the input queue. -/

/-- `RPUSH`: append to the tail. -/
def rpush (q : List Job) (j : Job) : List Job := q ++ [j]

/-- `LPOP`/`BLPOP`: remove and return the head (blocking-timeout behaviour
is wall-clock and not modelled; an empty queue yields `none`). -/
def lpop : List Job → Option Job × List Job
  | [] => (none, [])
  | j :: js => (some j, js)

/-- The state held in Redis: the pending FIFO list, the keyed result store
(most recent write first, looked up first — `SETEX` overwrites), and
whether the server answers `PING` (`health_check`). -/
structure QueueState where
  pending : List Job
  results : List (String × ResultRec)
  healthy : Bool
  deriving DecidableEq, Repr

/-- `QueueManager.enqueue_job`: build the job dict with `retry_count = 0`
and `rpush` it; `task_id` (`uuid4`) and `enqueued_at` (`datetime.now`) come
from oracles. -/
def enqueue_job (st : QueueState) (fresh_task_id : String) (image_url : String)
    (user_id : String) (timestamp : String) (callback_url : Option String)
    (now : String) : String × QueueState :=
  let job : Job :=
    { task_id := fresh_task_id, image_url := image_url, user_id := user_id,
      timestamp := timestamp, callback_url := callback_url,
      enqueued_at := now, retry_count := 0 }
  (fresh_task_id, { st with pending := rpush st.pending job })

/-- `QueueManager.dequeue_job`: pop the head of the input queue. -/
def dequeue_job (st : QueueState) : Option Job × QueueState :=
  match lpop st.pending with
  | (j, rest) => (j, { st with pending := rest })

/-- `QueueManager.store_result`: set `completed_at` on the record, then
`SETEX` it under the task id (overwriting; TTL expiry not modelled). -/
def store_result (st : QueueState) (task_id : String) (r : ResultRec)
    (now : String) : QueueState :=
  { st with results := (task_id, { r with completed_at := now }) :: st.results }

/-- `QueueManager.get_result`: `GET` by task id. -/
def qm_get_result (st : QueueState) (task_id : String) : Option ResultRec :=
  (st.results.find? fun p => p.1 == task_id).map fun p => p.2

/-- `QueueManager.requeue_job`: increment `retry_count` on the job dict and
`rpush` it back onto the tail of the input queue. -/
def requeue_job (st : QueueState) (j : Job) : QueueState :=
  { st with pending := rpush st.pending { j with retry_count := j.retry_count + 1 } }

/-- `QueueManager.health_check`: whether `PING` succeeds. -/
def health_check (st : QueueState) : Bool := st.healthy

/-- `QueueManager.get_queue_size`: `LLEN` of the input queue. -/
def get_queue_size (st : QueueState) : Nat := st.pending.length

/-- Repeatedly `lpop` until empty, listing the jobs in pop order (fuelled by
the initial length, which bounds the number of pops needed). -/
def drainFuel : Nat → List Job → List Job
  | 0, _ => []
  | n + 1, q =>
    match lpop q with
    | (some j, rest) => j :: drainFuel n rest
    | (none, _) => []

/-- The complete pop order of a pending list. -/
def drain (q : List Job) : List Job := drainFuel q.length q

/-! ### Sender worker (`src/sender.py`) -/

/-- `SenderWorker.download_image`: any exception from the fetch/decoding is
caught and logged, and `None` is returned — the message is discarded. -/
def download_image (env : Env) (image_url : String) : Option Image :=
  match env.http image_url with
  | .ok img => some img
  | .err _ => none

/-- `SenderWorker.process_job`: download, OCR, extract, inside one
`try/except`.  A `None` download raises `Exception("Failed to download
image")`; `success == False` from OCR raises `Exception("OCR processing
failed")`; the handler turns the raised message into the `error` field of a
`status='error'` record.  Otherwise a `status='completed'` record carries
the extracted `(phone_number, confidence)` and the first 500 characters of
the recognized text. -/
def process_job (env : Env) (job : Job) : ResultRec :=
  match download_image env job.image_url with
  | none =>
    { task_id := job.task_id, status := .error, user_id := job.user_id,
      timestamp := job.timestamp, image_url := job.image_url,
      error := some "Failed to download image", processed_at := env.now }
  | some image =>
    let ocr_result := ocr_process_image env image
    if ocr_result.success = false then
      { task_id := job.task_id, status := .error, user_id := job.user_id,
        timestamp := job.timestamp, image_url := job.image_url,
        error := some "OCR processing failed", processed_at := env.now }
    else
      let pc := extract_contract_number ocr_result.results
      { task_id := job.task_id, status := .completed, user_id := job.user_id,
        timestamp := job.timestamp, image_url := job.image_url,
        phone_number := pc.1, confidence := some pc.2,
        ocr_text := some (ocr_result.text.take 500), processed_at := env.now }

/-- Observable actions of one worker-loop iteration, in execution order. -/
inductive WorkerEvent where
  | stored (task_id : String) (r : ResultRec)
  | callback (url : String) (r : ResultRec)
  | requeued (j : Job)
  deriving DecidableEq, Repr

/-- One iteration of `SenderWorker.run` on a dequeued state: pop a job (no
job → idle), process it, store the result (the stored dict — the one the
callback also sends — carries `completed_at`), fire the optional callback,
then requeue iff the result is an error and `retry_count < max_retries`.
The returned event list records the side effects in program order. -/
def worker_step (env : Env) (max_retries : Nat) (st : QueueState) :
    QueueState × List WorkerEvent :=
  match dequeue_job st with
  | (none, st1) => (st1, [])
  | (some job, st1) =>
    let result := process_job env job
    let stored := { result with completed_at := env.now }
    let st2 := store_result st1 job.task_id result env.now
    let cb_events := match job.callback_url with
      | some url => [WorkerEvent.callback url stored]
      | none => []
    if result.status = RStatus.error ∧ job.retry_count < max_retries then
      (requeue_job st2 job,
        WorkerEvent.stored job.task_id stored :: cb_events
          ++ [WorkerEvent.requeued { job with retry_count := job.retry_count + 1 }])
    else
      (st2, WorkerEvent.stored job.task_id stored :: cb_events)

/-- Number of processing attempts a single job generates under a fixed
environment, following the worker's requeue rule: attempt once, and while
the attempt fails with `retry_count < max_retries`, attempt again with
`retry_count + 1`. -/
def totalAttempts (env : Env) (max_retries : Nat) (job : Job) : Nat :=
  if h : (process_job env job).status = RStatus.error ∧ job.retry_count < max_retries then
    1 + totalAttempts env max_retries { job with retry_count := job.retry_count + 1 }
  else 1
termination_by max_retries - job.retry_count
decreasing_by
  simp_wf
  omega

/-! ### Receiver (`src/receiver.py`) -/

/-- The `POST /process` request body (`ProcessRequest`). -/
structure RawRequest where
  image_url : String
  user_id : String
  timestamp : String
  callback_url : Option String := none
  deriving DecidableEq, Repr

/-- The `validate_image_url` field validator:
`v.startswith(('http://', 'https://'))`, as a prefix test on the character
sequence. -/
def validate_image_url (v : String) : Bool :=
  isPrefixChars "http://".data v.data || isPrefixChars "https://".data v.data

/-- The `validate_timestamp` field validator:
`datetime.fromisoformat(v.replace('Z', '+00:00'))` must not raise.  The
ISO-8601 parser is the standard library's; it is the oracle `iso_parses`. -/
def validate_timestamp (iso_parses : String → Bool) (v : String) : Bool :=
  iso_parses (v.replace "Z" "+00:00")

/-- Pydantic runs both field validators before the endpoint body. -/
def validRequest (iso_parses : String → Bool) (r : RawRequest) : Bool :=
  validate_image_url r.image_url && validate_timestamp iso_parses r.timestamp

/-- An HTTP response of the receiver, reduced to what the spec talks about. -/
structure HttpResponse where
  status_code : Nat
  task_id : Option String := none
  deriving DecidableEq, Repr

/-- The `POST /process` endpoint (`process_image`).  Pydantic validation
failure means the handler never runs: FastAPI answers 422 and nothing is
enqueued.  Inside the handler, a failed `health_check` raises
`HTTPException(503)` — but that raise happens inside the `try` block whose
`except Exception` clause catches every `Exception` (and FastAPI's
`HTTPException` is one), so the handler actually re-raises
`HTTPException(500, "Failed to enqueue job: ...")`: the client sees 500,
not 503.  On the happy path the job is enqueued and 202 returned. -/
def process_image_endpoint (iso_parses : String → Bool) (st : QueueState)
    (req : RawRequest) (fresh_task_id : String) (now : String) :
    HttpResponse × QueueState :=
  if validRequest iso_parses req = false then
    ({ status_code := 422 }, st)
  else if health_check st = false then
    ({ status_code := 500 }, st)
  else
    let tid_st := enqueue_job st fresh_task_id req.image_url req.user_id
      req.timestamp req.callback_url now
    ({ status_code := 202, task_id := some tid_st.1 }, tid_st.2)

/-- The JSON string a stored record's `status` field holds. -/
def statusToStr : RStatus → String
  | .completed => "completed"
  | .error => "error"

/-- The `GET /result/{task_id}` response model (`ResultResponse`). -/
structure ResultResponse where
  task_id : String
  status : String
  result : Option ResultRec := none
  error : Option String := none
  deriving DecidableEq, Repr

/-- The `GET /result/{task_id}` endpoint (`get_result`): on a hit, echo the
stored record's status (`result.get('status', 'completed')`; stored records
always carry one), with the payload suppressed and the error exposed exactly
when the status is `'error'`; on a miss, a synthesized `'processing'` with
neither payload nor error. -/
def get_result_endpoint (st : QueueState) (task_id : String) : ResultResponse :=
  match qm_get_result st task_id with
  | some r =>
    let s := statusToStr r.status
    { task_id := task_id, status := s,
      result := if s ≠ "error" then some r else none,
      error := if s = "error" then r.error else none }
  | none =>
    { task_id := task_id, status := "processing" }

/-! ### Concrete fixtures used to instantiate the theorems below -/

/-- An environment whose HTTP fetch always raises `requests` exceptions with
the message `"Connection timed out"`. -/
def c4_env : Env :=
  { http := fun _ => HttpResult.err "Connection timed out",
    engine := fun _ => EngineResult.returned none, now := "2026-02-14T12:00:05" }

/-- A freshly admitted job (retry_count 0). -/
def c4_job : Job :=
  { task_id := "task-c4", image_url := "http://example.com/x.jpg",
    user_id := "u1", timestamp := "2026-02-14T12:00:00",
    callback_url := none, enqueued_at := "2026-02-14T12:00:01", retry_count := 0 }

/-- An environment whose HTTP fetch always fails. -/
def c2_env : Env :=
  { http := fun _ => HttpResult.err "boom",
    engine := fun _ => EngineResult.returned none, now := "2026-02-14T12:00:05" }

/-- A freshly admitted job (retry_count 0). -/
def c2_job : Job :=
  { task_id := "task-c2", image_url := "http://example.com/a.jpg",
    user_id := "u1", timestamp := "2026-02-14T12:00:00",
    callback_url := none, enqueued_at := "2026-02-14T12:00:01", retry_count := 0 }

/-- A queue holding exactly the job above. -/
def c2_state : QueueState := { pending := [c2_job], results := [], healthy := true }

/-- Same shape as `c2_state`, kept separate so the claims share nothing. -/
def c3_env : Env :=
  { http := fun _ => HttpResult.err "boom",
    engine := fun _ => EngineResult.returned none, now := "2026-02-14T12:00:05" }

def c3_job : Job :=
  { task_id := "task-c3", image_url := "http://example.com/a.jpg",
    user_id := "u1", timestamp := "2026-02-14T12:00:00",
    callback_url := none, enqueued_at := "2026-02-14T12:00:01", retry_count := 0 }

def c3_state : QueueState := { pending := [c3_job], results := [], healthy := true }

/-- An environment where download succeeds and OCR sees one confident
fragment that contains no phone number. -/
def c7_env : Env :=
  { http := fun _ => HttpResult.ok { id := 7 },
    engine := fun _ => EngineResult.returned
      (some [{ rec_texts := ["hello world"], rec_scores := [mkRat 9 10] }]),
    now := "2026-02-14T12:00:05" }

def c7_job : Job :=
  { task_id := "task-c7", image_url := "http://example.com/a.jpg",
    user_id := "u1", timestamp := "2026-02-14T12:00:00",
    callback_url := none, enqueued_at := "2026-02-14T12:00:01", retry_count := 0 }

def c7_state : QueueState := { pending := [c7_job], results := [], healthy := true }

/-- An environment where download succeeds and OCR returns one page whose
single fragment sits below `min_confidence` (0.1 < 0.3). -/
def c10_env : Env :=
  { http := fun _ => HttpResult.ok { id := 10 },
    engine := fun _ => EngineResult.returned
      (some [{ rec_texts := ["faint text"], rec_scores := [mkRat 1 10] }]),
    now := "2026-02-14T12:00:05" }

def c10_page : RawOCRPage := { rec_texts := ["faint text"], rec_scores := [mkRat 1 10] }

def c10_job : Job :=
  { task_id := "task-c10", image_url := "http://example.com/a.jpg",
    user_id := "u1", timestamp := "2026-02-14T12:00:00",
    callback_url := none, enqueued_at := "2026-02-14T12:00:01", retry_count := 0 }

def c10_state : QueueState := { pending := [c10_job], results := [], healthy := true }

/-- An empty, healthy store (no result for any task id). -/
def c5_state : QueueState := { pending := [], results := [], healthy := true }

/-- An ISO-8601 oracle that accepts everything: the C8 witness rejection is
forced by the URL scheme alone. -/
def c8_iso : String → Bool := fun _ => true

def c8_state : QueueState := { pending := [], results := [], healthy := true }

/-- The spec's own example of a malformed admission: `image_url: "ftp://bad"`. -/
def c8_request : RawRequest :=
  { image_url := "ftp://bad", user_id := "u1", timestamp := "2026-02-14T12:00:00" }

def c1_iso : String → Bool := fun _ => true

/-- A store whose backing Redis does not answer `PING`. -/
def c1_state : QueueState := { pending := [], results := [], healthy := false }

/-- A perfectly valid admission request. -/
def c1_request : RawRequest :=
  { image_url := "http://example.com/a.jpg", user_id := "u1",
    timestamp := "2026-02-14T12:00:00" }

/-! ## Theorems -/

/-! ### Extractor output shape (C9) -/


theorem takeDigits_spec (n : Nat) (cs ds rest : List Char)
    (h : takeDigits n cs = some (ds, rest)) :
    ds.length = n ∧ ∀ c ∈ ds, c.isDigit = true := by
  induction n generalizing cs ds rest with
  | zero =>
    simp only [takeDigits, Option.some.injEq, Prod.mk.injEq] at h
    obtain ⟨h1, -⟩ := h
    subst h1
    simp
  | succ n ih =>
    cases cs with
    | nil => simp [takeDigits] at h
    | cons c cs =>
      simp only [takeDigits] at h
      cases hdig : c.isDigit with
      | false => rw [hdig] at h; simp at h
      | true =>
        rw [hdig] at h
        simp only [if_true] at h
        cases h2 : takeDigits n cs with
        | none => rw [h2] at h; simp at h
        | some p =>
          rw [h2] at h
          obtain ⟨ds2, rest2⟩ := p
          simp only [Option.some.injEq, Prod.mk.injEq] at h
          obtain ⟨h3, -⟩ := h
          subst h3
          obtain ⟨hl, hd⟩ := ih cs ds2 rest2 h2
          refine ⟨by simp [hl], ?_⟩
          intro x hx
          rcases List.mem_cons.mp hx with rfl | hx
          · exact hdig
          · exact hd x hx

theorem matchContractAt_spec (cs ds : List Char)
    (h : matchContractAt cs = some ds) :
    ds.length = 10 ∧ ∀ c ∈ ds, c.isDigit = true := by
  unfold matchContractAt at h
  simp only [Option.bind_eq_some, Option.map_eq_some'] at h
  obtain ⟨r1, -, r2, -, r3, -, r4, -, ⟨ds0, rest0⟩, htd, hmap⟩ := h
  obtain rfl : ds0 = ds := hmap
  exact takeDigits_spec 10 _ _ rest0 htd

theorem searchContract_spec (cs ds : List Char)
    (h : searchContract cs = some ds) :
    ds.length = 10 ∧ ∀ c ∈ ds, c.isDigit = true := by
  induction cs with
  | nil => simp [searchContract] at h
  | cons c cs ih =>
    simp only [searchContract] at h
    cases hm : matchContractAt (c :: cs) with
    | some ds2 =>
      rw [hm] at h
      obtain rfl : ds2 = ds := by simpa using h
      exact matchContractAt_spec _ _ hm
    | none =>
      rw [hm] at h
      exact ih h

theorem matchPhoneAt_spec (cs ds : List Char)
    (h : matchPhoneAt cs = some ds) :
    ds.length = 10 ∧ (∀ c ∈ ds, c.isDigit = true) ∧ ds.head? = some '5' := by
  cases cs with
  | nil => simp [matchPhoneAt] at h
  | cons c cs =>
    simp only [matchPhoneAt] at h
    split at h
    case isFalse => exact absurd h (by simp)
    rename_i hc
    subst hc
    cases h9 : takeDigits 9 cs with
    | none => rw [h9] at h; simp at h
    | some p =>
      rw [h9] at h
      obtain ⟨ds9, rest9⟩ := p
      simp only [Option.some.injEq] at h
      subst h
      obtain ⟨hl, hd⟩ := takeDigits_spec 9 cs ds9 rest9 h9
      refine ⟨by simp [hl], ?_, by simp⟩
      intro x hx
      rcases List.mem_cons.mp hx with rfl | hx
      · decide
      · exact hd x hx

theorem findPhone_spec (cs ds : List Char)
    (h : findPhone cs = some ds) :
    ds.length = 10 ∧ (∀ c ∈ ds, c.isDigit = true) ∧ ds.head? = some '5' := by
  induction cs with
  | nil => simp [findPhone] at h
  | cons c cs ih =>
    simp only [findPhone] at h
    cases hm : matchPhoneAt (c :: cs) with
    | some ds2 =>
      rw [hm] at h
      obtain rfl : ds2 = ds := by simpa using h
      exact matchPhoneAt_spec _ _ hm
    | none =>
      rw [hm] at h
      exact ih h

theorem phoneFallback_spec (tws : List (String × Rat)) (ft : String) :
    phoneFallback tws ft = (none, 0) ∨
    ∃ s c, phoneFallback tws ft = (some s, c) ∧
      s.data.length = 10 ∧ (∀ ch ∈ s.data, ch.isDigit = true) ∧
      s.data.head? = some '5' := by
  unfold phoneFallback
  cases hf : findPhone (ft.data.filter Char.isDigit) with
  | none => simp only [hf]; exact Or.inl trivial
  | some ds =>
    simp only [hf]
    obtain ⟨hl, hd, hh⟩ := findPhone_spec _ _ hf
    exact Or.inr ⟨String.mk ds, _, rfl, hl, hd, hh⟩

/-- C9: for every input list of OCR results, `extract_contract_number`
returns either `(none, 0.0)` or a pair `(some s, c)` where `s` consists of
exactly ten decimal digits the first of which is `'5'`. -/
theorem extract_contract_number_shape (rs : List OCRResult) :
    extract_contract_number rs = (none, 0) ∨
    ∃ s c, extract_contract_number rs = (some s, c) ∧
      s.data.length = 10 ∧ (∀ ch ∈ s.data, ch.isDigit = true) ∧
      s.data.head? = some '5' := by
  unfold extract_contract_number
  dsimp only
  split
  · rename_i ds hs
    obtain ⟨hl, hd⟩ := searchContract_spec _ _ hs
    split
    · rename_i rest
      split
      · rename_i p hfind
        exact Or.inr ⟨String.mk ('5' :: rest), p.2, rfl, hl, hd, rfl⟩
      · exact Or.inr ⟨String.mk ('5' :: rest), mkRat 99 100, rfl, hl, hd, rfl⟩
    · exact phoneFallback_spec _ _
  · exact phoneFallback_spec _ _

/-! ### Queue FIFO order (C6) -/

theorem drainFuel_eq (q : List Job) : ∀ n, q.length ≤ n → drainFuel n q = q := by
  induction q with
  | nil =>
    intro n _
    cases n with
    | zero => rfl
    | succ n => simp [drainFuel, lpop]
  | cons j js ih =>
    intro n hn
    cases n with
    | zero => simp at hn
    | succ n =>
      simp only [drainFuel, lpop]
      rw [ih n (by simpa using hn)]

theorem drain_eq (q : List Job) : drain q = q :=
  drainFuel_eq q q.length le_rfl

theorem foldl_rpush (js q : List Job) : js.foldl rpush q = q ++ js := by
  induction js generalizing q with
  | nil => simp
  | cons j js ih => simp [rpush, ih]

/-- C6: `push` appends to the tail and `pop` removes the head, so repeatedly
popping a store built by a sequence of pushes returns the jobs in strict
FIFO order of the pushes; a requeued failed job is pushed to the tail,
behind every job pending at requeue time. -/
theorem queue_fifo_order (js q : List Job) (j : Job) (st : QueueState) :
    drain (js.foldl rpush q) = q ++ js
    ∧ lpop (j :: q) = (some j, q)
    ∧ (requeue_job st j).pending
        = st.pending ++ [{ j with retry_count := j.retry_count + 1 }]
    ∧ drain (requeue_job st j).pending
        = st.pending ++ [{ j with retry_count := j.retry_count + 1 }] := by
  refine ⟨?_, rfl, rfl, ?_⟩
  · rw [foldl_rpush, drain_eq]
  · rw [drain_eq]; rfl

/-! ### Worker loop: retry, storage, success, empty OCR (C2, C3, C7, C10) -/

theorem totalAttempts_le (env : Env) (mr : Nat) :
    ∀ (n : Nat) (job : Job), mr - job.retry_count ≤ n → job.retry_count ≤ mr →
      totalAttempts env mr job ≤ mr + 1 - job.retry_count := by
  intro n
  induction n with
  | zero =>
    intro job hfuel hrc
    unfold totalAttempts
    split
    · rename_i hcond
      omega
    · omega
  | succ n ih =>
    intro job hfuel hrc
    unfold totalAttempts
    split
    · rename_i hcond
      have hb := ih { job with retry_count := job.retry_count + 1 }
        (by simp; omega) (by simp; omega)
      simp only at hb
      omega
    · omega

/-- C2: a failing attempt with `retry_count < max_retries` puts the job back
on the pending queue, at the tail, with the same `task_id` and
`retry_count` incremented by exactly 1; a failing attempt with
`retry_count ≥ max_retries` requeues nothing; and a job admitted with
`retry_count = 0` is attempted at most `max_retries + 1` times in total. -/
theorem worker_retry_requeue (env : Env) (mr : Nat) (st : QueueState)
    (job : Job) (rest : List Job) (hp : st.pending = job :: rest)
    (herr : (process_job env job).status = RStatus.error) :
    (job.retry_count < mr →
        (worker_step env mr st).1.pending
          = rest ++ [{ job with retry_count := job.retry_count + 1 }])
    ∧ ({ job with retry_count := job.retry_count + 1 }).task_id = job.task_id
    ∧ ({ job with retry_count := job.retry_count + 1 }).retry_count
        = job.retry_count + 1
    ∧ (mr ≤ job.retry_count → (worker_step env mr st).1.pending = rest)
    ∧ (job.retry_count = 0 → totalAttempts env mr job ≤ mr + 1)
    := by
  obtain ⟨p, res, hl⟩ := st
  replace hp : p = job :: rest := hp
  subst hp
  refine ⟨fun hlt => ?_, rfl, rfl, fun hge => ?_, fun h0 => ?_⟩
  · simp only [worker_step, dequeue_job, lpop]
    rw [if_pos ⟨herr, hlt⟩]
    simp [requeue_job, store_result, rpush]
  · simp only [worker_step, dequeue_job, lpop]
    rw [if_neg]
    · simp [store_result]
    · rintro ⟨-, hlt⟩
      omega
  · have := totalAttempts_le env mr (mr - job.retry_count) job le_rfl (by omega)
    omega

/-- C2 witness: a concrete always-failing environment, one fresh job. -/
theorem worker_retry_requeue_witness :
    (worker_step c2_env 3 c2_state).1.pending = [{ c2_job with retry_count := 1 }]
    ∧ totalAttempts c2_env 3 c2_job ≤ 4 := by
  have h := worker_retry_requeue c2_env 3 c2_state c2_job [] rfl rfl
  exact ⟨by simpa using h.1 (by decide), h.2.2.2.2 rfl⟩

/-- C3: whatever the outcome of the attempt, the worker writes that
attempt's result record into the result store, and the write is the first
side effect of the iteration (in particular it precedes any requeue). -/
theorem worker_stores_every_attempt (env : Env) (mr : Nat) (st : QueueState)
    (job : Job) (rest : List Job) (hp : st.pending = job :: rest) :
    qm_get_result (worker_step env mr st).1 job.task_id
      = some { process_job env job with completed_at := env.now }
    ∧ (worker_step env mr st).2.head?
      = some (WorkerEvent.stored job.task_id
          { process_job env job with completed_at := env.now }) := by
  obtain ⟨p, res, hl⟩ := st
  replace hp : p = job :: rest := hp
  subst hp
  constructor
  · simp only [worker_step, dequeue_job, lpop]
    split
    · simp [requeue_job, store_result, qm_get_result]
    · simp [store_result, qm_get_result]
  · simp only [worker_step, dequeue_job, lpop]
    split
    · simp
    · simp

/-- C3 witness: the failing attempt's error record is retrievable. -/
theorem worker_stores_every_attempt_witness :
    qm_get_result (worker_step c3_env 3 c3_state).1 "task-c3"
      = some { process_job c3_env c3_job with completed_at := c3_env.now } := by
  have h := worker_stores_every_attempt c3_env 3 c3_state c3_job [] rfl
  exact h.1

/-- C7: when download and recognition succeed, the attempt completes with
`status = completed` whatever the extractor returns (a `none` extracted
number included), and the worker requeues nothing. -/
theorem success_even_with_no_number (env : Env) (mr : Nat) (st : QueueState)
    (job : Job) (rest : List Job) (img : Image)
    (hp : st.pending = job :: rest)
    (hdl : env.http job.image_url = HttpResult.ok img)
    (hocr : (ocr_process_image env img).success = true) :
    (process_job env job).status = RStatus.completed
    ∧ (process_job env job).phone_number
        = (extract_contract_number (ocr_process_image env img).results).1
    ∧ (worker_step env mr st).1.pending = rest
    ∧ ∀ e ∈ (worker_step env mr st).2, ∀ j2, e ≠ WorkerEvent.requeued j2 := by
  obtain ⟨p, res, hl⟩ := st
  replace hp : p = job :: rest := hp
  subst hp
  have hpj : process_job env job
      = { task_id := job.task_id, status := .completed, user_id := job.user_id,
          timestamp := job.timestamp, image_url := job.image_url,
          phone_number := (extract_contract_number (ocr_process_image env img).results).1,
          confidence := some (extract_contract_number (ocr_process_image env img).results).2,
          ocr_text := some ((ocr_process_image env img).text.take 500),
          processed_at := env.now } := by
    unfold process_job download_image
    rw [hdl]
    simp only [hocr]
    simp
  refine ⟨by rw [hpj], by rw [hpj], ?_, ?_⟩
  · simp only [worker_step, dequeue_job, lpop]
    rw [if_neg]
    · rfl
    · rintro ⟨hstat, -⟩
      rw [hpj] at hstat
      exact absurd hstat (by simp)
  · simp only [worker_step, dequeue_job, lpop]
    rw [if_neg]
    · intro e he j2
      rcases List.mem_cons.mp he with rfl | he2
      · simp
      · cases hcb : job.callback_url with
        | none => rw [hcb] at he2; simp at he2
        | some url =>
          rw [hcb] at he2
          simp at he2
          subst he2
          simp
    · rintro ⟨hstat, -⟩
      rw [hpj] at hstat
      exact absurd hstat (by simp)

/-- C7 witness: OCR sees confident text containing no number; the attempt
still completes, with a `none` phone number, and the queue is left empty. -/
theorem success_even_with_no_number_witness :
    (process_job c7_env c7_job).status = RStatus.completed
    ∧ (process_job c7_env c7_job).phone_number = none
    ∧ (worker_step c7_env 3 c7_state).1.pending = [] := by
  have h := success_even_with_no_number c7_env 3 c7_state c7_job [] { id := 7 }
    rfl rfl (by decide)
  refine ⟨h.1, ?_, h.2.2.1⟩
  rw [h.2.1]
  decide

/-- C10: recognition that returns (without raising) zero usable fragments —
none at all, or all below `min_confidence` — yields `success = False`, which
the worker records as a `status = error` result with the fixed message
`"OCR processing failed"` and, retry budget permitting, requeues. -/
theorem empty_ocr_is_failure (env : Env) (mr : Nat) (st : QueueState)
    (job : Job) (rest : List Job) (img : Image) (page : RawOCRPage)
    (hp : st.pending = job :: rest)
    (hdl : env.http job.image_url = HttpResult.ok img)
    (heng : env.engine img = EngineResult.returned (some [page]))
    (hempty : collectResults page.rec_texts page.rec_scores = []) :
    (ocr_process_image env img).success = false
    ∧ (process_job env job).status = RStatus.error
    ∧ (process_job env job).error = some "OCR processing failed"
    ∧ (job.retry_count < mr →
        (worker_step env mr st).1.pending
          = rest ++ [{ job with retry_count := job.retry_count + 1 }])
    ∧ qm_get_result (worker_step env mr st).1 job.task_id
        = some { process_job env job with completed_at := env.now } := by
  obtain ⟨p, res, hl⟩ := st
  replace hp : p = job :: rest := hp
  subst hp
  have hsucc : (ocr_process_image env img).success = false := by
    unfold ocr_process_image
    rw [heng]
    simp [hempty]
  have hpj : process_job env job
      = { task_id := job.task_id, status := .error, user_id := job.user_id,
          timestamp := job.timestamp, image_url := job.image_url,
          error := some "OCR processing failed", processed_at := env.now } := by
    unfold process_job download_image
    rw [hdl]
    simp only [hsucc]
    simp
  refine ⟨hsucc, by rw [hpj], by rw [hpj], fun hlt => ?_, ?_⟩
  · simp only [worker_step, dequeue_job, lpop]
    rw [if_pos ⟨by rw [hpj], hlt⟩]
    simp [requeue_job, store_result, rpush]
  · simp only [worker_step, dequeue_job, lpop]
    split
    · simp [requeue_job, store_result, qm_get_result]
    · simp [store_result, qm_get_result]

/-- C10 witness: one fragment below the confidence threshold. -/
theorem empty_ocr_is_failure_witness :
    (ocr_process_image c10_env { id := 10 }).success = false
    ∧ (process_job c10_env c10_job).status = RStatus.error
    ∧ (process_job c10_env c10_job).error = some "OCR processing failed"
    ∧ (worker_step c10_env 3 c10_state).1.pending
        = [{ c10_job with retry_count := 1 }] := by
  have h := empty_ocr_is_failure c10_env 3 c10_state c10_job [] { id := 10 }
    c10_page rfl rfl rfl (by decide)
  exact ⟨h.1, h.2.1, h.2.2.1, by simpa using h.2.2.2.1 (by decide)⟩

/-! ### Result query, admission validation, unavailability, error text
(C5, C8, C1, C4) -/

/-- C5: a result-store miss — any unknown or garbage task id included — is
answered `status = "processing"` with neither payload nor error, and no
response of this endpoint ever carries a distinct `"not_found"` status. -/
theorem query_miss_is_processing (st : QueueState) (task_id : String)
    (hmiss : qm_get_result st task_id = none) :
    get_result_endpoint st task_id
      = { task_id := task_id, status := "processing", result := none, error := none }
    ∧ ∀ (st2 : QueueState) (t2 : String),
        (get_result_endpoint st2 t2).status ≠ "not_found" := by
  constructor
  · unfold get_result_endpoint
    rw [hmiss]
  · intro st2 t2
    unfold get_result_endpoint
    cases qm_get_result st2 t2 with
    | none => simp
    | some r => cases hst : r.status <;> simp [statusToStr, hst]

/-- C5 witness: polling a garbage task id against an empty store. -/
theorem query_miss_is_processing_witness :
    get_result_endpoint c5_state "no-such-task"
      = { task_id := "no-such-task", status := "processing",
          result := none, error := none } :=
  (query_miss_is_processing c5_state "no-such-task" rfl).1

/-- C8: an admission whose `image_url` has a non-HTTP(S) scheme, or whose
timestamp the ISO-8601 parser rejects, is answered with HTTP 422 (a 4xx)
and leaves the queue state untouched — no job is pushed. -/
theorem invalid_admission_rejected (iso_parses : String → Bool) (st : QueueState)
    (req : RawRequest) (fresh_task_id : String) (now : String)
    (hbad : validate_image_url req.image_url = false
        ∨ validate_timestamp iso_parses req.timestamp = false) :
    (process_image_endpoint iso_parses st req fresh_task_id now).1.status_code = 422
    ∧ 400 ≤ (process_image_endpoint iso_parses st req fresh_task_id now).1.status_code
    ∧ (process_image_endpoint iso_parses st req fresh_task_id now).1.status_code < 500
    ∧ (process_image_endpoint iso_parses st req fresh_task_id now).2 = st := by
  have hv : validRequest iso_parses req = false := by
    unfold validRequest
    rcases hbad with h | h <;> simp [h]
  unfold process_image_endpoint
  rw [if_pos hv]
  exact ⟨rfl, by simp, by simp, rfl⟩

/-- C8 witness: the spec's own example `image_url: "ftp://bad"`. -/
theorem invalid_admission_rejected_witness :
    (process_image_endpoint c8_iso c8_state c8_request "tid-1"
        "2026-02-14T12:00:01").1.status_code = 422
    ∧ (process_image_endpoint c8_iso c8_state c8_request "tid-1"
        "2026-02-14T12:00:01").2 = c8_state := by
  have h := invalid_admission_rejected c8_iso c8_state c8_request "tid-1"
    "2026-02-14T12:00:01" (Or.inl (by decide))
  exact ⟨h.1, h.2.2.2⟩

/-- C1 (code bug): on a valid request against an unreachable queue store,
the handler's own `HTTPException(503)` is caught by its blanket
`except Exception` clause and re-raised as `HTTPException(500, ...)`, so the
admission endpoint answers 500 — never 503; no job is pushed. -/
theorem unavailable_returns_500_not_503 :
    (process_image_endpoint c1_iso c1_state c1_request "tid-1"
        "2026-02-14T12:00:01").1.status_code = 500
    ∧ (process_image_endpoint c1_iso c1_state c1_request "tid-1"
        "2026-02-14T12:00:01").1.status_code ≠ 503
    ∧ (process_image_endpoint c1_iso c1_state c1_request "tid-1"
        "2026-02-14T12:00:01").2.pending = [] := by
  refine ⟨by decide, by decide, by decide⟩

/-- C4 counterexample: the claim "the error description is the failure
reason captured verbatim (the original exception's message)" is false — a
download that fails with `"Connection timed out"` is recorded with the
substituted generic description `"Failed to download image"`. -/
theorem error_not_verbatim_counterexample :
    ¬ (∀ (env : Env) (job : Job) (msg : String),
        env.http job.image_url = HttpResult.err msg →
        (process_job env job).error = some msg) := by
  intro hclaim
  have h := hclaim c4_env c4_job "Connection timed out" rfl
  have h2 : (process_job c4_env c4_job).error = some "Failed to download image" := rfl
  rw [h2] at h
  simp at h

/-- C4 (amended): every failing attempt yields a `status = error` record,
but the error description is the fixed string `"Failed to download image"`
for download failures and `"OCR processing failed"` for recognition
failures — substituted generic messages, not the underlying exception's
text, which `download_image` / `OCRService.process_image` swallow. -/
theorem failed_attempt_error_description (env : Env) (job : Job) (msg : String)
    (img : Image) :
    (env.http job.image_url = HttpResult.err msg →
      (process_job env job).status = RStatus.error
      ∧ (process_job env job).error = some "Failed to download image")
    ∧ (env.http job.image_url = HttpResult.ok img →
      (ocr_process_image env img).success = false →
      (process_job env job).status = RStatus.error
      ∧ (process_job env job).error = some "OCR processing failed") := by
  constructor
  · intro hdl
    have hpj : process_job env job
        = { task_id := job.task_id, status := .error, user_id := job.user_id,
            timestamp := job.timestamp, image_url := job.image_url,
            error := some "Failed to download image", processed_at := env.now } := by
      unfold process_job download_image
      rw [hdl]
    exact ⟨by rw [hpj], by rw [hpj]⟩
  · intro hdl hocr
    have hpj : process_job env job
        = { task_id := job.task_id, status := .error, user_id := job.user_id,
            timestamp := job.timestamp, image_url := job.image_url,
            error := some "OCR processing failed", processed_at := env.now } := by
      unfold process_job download_image
      rw [hdl]
      simp only [hocr]
      simp
    exact ⟨by rw [hpj], by rw [hpj]⟩

/-- C4 amended witness: a timed-out download is recorded as an error with
the generic description. -/
theorem failed_attempt_error_description_witness :
    (process_job c4_env c4_job).status = RStatus.error
    ∧ (process_job c4_env c4_job).error = some "Failed to download image" :=
  (failed_attempt_error_description c4_env c4_job "Connection timed out"
    { id := 0 }).1 rfl

end PhoneDetect
